import Mathlib

/-!
Verification of the hospital management system's booking-validation and
persistence layer (`src/utils.py`, `src/database.py`).

The Python functions are shallowly embedded as executable Lean functions:
`datetime.strptime` with the formats `"%H:%M"` / `"%Y-%m-%d"` is modelled by
`strptimeHM` / `strptimeYMD` (CPython's `_strptime` compiles `%H` to the
regex `2[0-3]|[0-1]\d|\d`, `%M` to `[0-5]\d|\d`, `%Y` to `\d{4}`, `%m` to
`1[0-2]|0[1-9]|[1-9]`, `%d` to `3[0-1]|[1-2]\d|0[1-9]|[1-9]| [1-9]`, anchors
at the start and rejects unconverted trailing data; the resulting
`datetime` constructor additionally requires year at least 1 and the day to
fit the month).  Exceptions are modelled by `Option`; the SQLite store by an
explicit `DB` state record whose `add_appointment` enforces the
UNIQUE (doctor_id, date, time) constraint exactly as the engine does.
-/

namespace Hospital

/-- ASCII digit test (the `\\d` of the strptime regexes). -/
def isDig (c : Char) : Bool :=
  48 ≤ c.toNat && c.toNat ≤ 57

/-- Numeric value of a decimal digit character. -/
def digitVal (c : Char) : Nat := c.toNat - 48

/-- Value of a digit string, most significant first. -/
def digitsVal (l : List Char) : Nat := l.foldl (fun n c => 10 * n + digitVal c) 0

/-- A one-or-two-digit numeric field of a strptime format.  Three of the
directives used by the source compile to a regex of this shape:
`%H` is `2[0-3]|[0-1]\\d|\\d` (any single digit, or two digits valued at most
23), `%M` is `[0-5]\\d|\\d` (bound 59), `%m` is `1[0-2]|0[1-9]|[1-9]` (one or
two digits valued 1 to 12).  `lo`/`hi` are the value bounds; a single digit is
never bounded above by the regexes (all bounds exceed 9).  `%d` has an extra
space-padded alternative and is modelled separately by `dayOf`. -/
def fieldOf (lo hi : Nat) : List Char → Option Nat
  | [a] => if isDig a && decide (lo ≤ digitVal a) then some (digitVal a) else none
  | [a, b] =>
      if isDig a && isDig b &&
          decide (lo ≤ 10 * digitVal a + digitVal b && 10 * digitVal a + digitVal b ≤ hi) then
        some (10 * digitVal a + digitVal b)
      else none
  | _ => none

/-- Anchored full match of `field1 sep field2` where each field is a
one-or-two-digit `fieldOf` field: the first field consumes greedily up to two
characters before the literal separator, so the separator sits at the second
or third position. -/
def twoFieldsOf (sep : Char) (lo1 hi1 lo2 hi2 : Nat) : List Char → Option (Nat × Nat)
  | a :: b :: rest =>
      if b = sep then
        match fieldOf lo1 hi1 [a], fieldOf lo2 hi2 rest with
        | some x, some y => some (x, y)
        | _, _ => none
      else
        match rest with
        | c :: rest2 =>
            if c = sep then
              match fieldOf lo1 hi1 [a, b], fieldOf lo2 hi2 rest2 with
              | some x, some y => some (x, y)
              | _, _ => none
            else none
        | [] => none
  | _ => none

/-- `datetime.strptime(s, "%H:%M")`: an anchored full match of
`(2[0-3]|[0-1]\\d|\\d):([0-5]\\d|\\d)`; returns the (hour, minute) pair,
`none` models the `ValueError`. -/
def strptimeHM (l : List Char) : Option (Nat × Nat) :=
  twoFieldsOf ':' 0 23 0 59 l

/-- CPython `%Y` directive: exactly four digits. -/
def yearOf : List Char → Option Nat
  | [a, b, c, d] =>
      if isDig a && isDig b && isDig c && isDig d then
        some (digitsVal [a, b, c, d])
      else none
  | _ => none

/-- Gregorian leap-year rule used by `datetime`. -/
def isLeap (y : Nat) : Bool := y % 4 = 0 && (y % 100 ≠ 0 || y % 400 = 0)

/-- Days in a month, as enforced by the `datetime` constructor. -/
def daysInMonth (y m : Nat) : Nat :=
  if m = 2 then (if isLeap y then 29 else 28)
  else if m = 4 || m = 6 || m = 9 || m = 11 then 30
  else 31

/-- CPython `%d` directive: regex `3[0-1]|[1-2]\\d|0[1-9]|[1-9]| [1-9]`, i.e.
one digit valued at least 1, two digits valued 1 to 31, or a space followed
by a nonzero digit (the space-padded day kept by `_strptime` so ANSI C `%c`
data parses).  A longer space-padded form such as "  1" or " 12" leaves
unconverted data and is rejected. -/
def dayOf : List Char → Option Nat
  | [a] => if isDig a && decide (1 ≤ digitVal a) then some (digitVal a) else none
  | [a, b] =>
      if a = ' ' then
        if isDig b && decide (1 ≤ digitVal b) then some (digitVal b) else none
      else
        if isDig a && isDig b &&
            decide (1 ≤ 10 * digitVal a + digitVal b && 10 * digitVal a + digitVal b ≤ 31) then
          some (10 * digitVal a + digitVal b)
        else none
  | _ => none

/-- Month-and-day tail of the `%Y-%m-%d` match (the part after `YYYY-`): the
`%m` month field consumes greedily up to two characters before the literal
hyphen; the rest is the `%d` day field `dayOf`. -/
def mdOf : List Char → Option (Nat × Nat)
  | a :: b :: rest =>
      if b = '-' then
        match fieldOf 1 12 [a], dayOf rest with
        | some m, some d => some (m, d)
        | _, _ => none
      else
        match rest with
        | c :: rest2 =>
            if c = '-' then
              match fieldOf 1 12 [a, b], dayOf rest2 with
              | some m, some d => some (m, d)
              | _, _ => none
            else none
        | [] => none
  | _ => none

/-- `datetime.strptime(s, "%Y-%m-%d")`: anchored full match of
`\\d{4}-(1[0-2]|0[1-9]|[1-9])-(3[0-1]|[1-2]\\d|0[1-9]|[1-9]| [1-9])`, then the
`datetime(year, month, day)` constructor requires `1 ≤ year` and the day to
fit the (leap-aware) month. -/
def strptimeYMD : List Char → Option (Nat × Nat × Nat)
  | a :: b :: c :: d :: e :: rest =>
      if e = '-' then
        match yearOf [a, b, c, d], mdOf rest with
        | some y, some (m, dd) =>
            if 1 ≤ y && dd ≤ daysInMonth y m then some (y, m, dd) else none
        | _, _ => none
      else none
  | _ => none

/-- `utils.validate_time_str`: try `strptime(t, "%H:%M")`, catch everything. -/
def validate_time_str (t : String) : Bool × Option String :=
  match strptimeHM t.data with
  | some _ => (true, none)
  | none => (false, some "Time must be in HH:MM 24-hour format (e.g., 09:30).")

/-- `utils.validate_date_str`: try `strptime(d, "%Y-%m-%d")`, catch everything. -/
def validate_date_str (d : String) : Bool × Option String :=
  match strptimeYMD d.data with
  | some _ => (true, none)
  | none => (false, some "Date must be in YYYY-MM-DD format (e.g., 2025-11-26).")

/-- `utils.parse_time`: `strptime(t, "%H:%M").time()`; raising is `none`. -/
def parse_time (t : List Char) : Option (Nat × Nat) := strptimeHM t

example : (validate_time_str "09:30").1 = true := by decide
example : (validate_time_str "9:30").1 = true := by decide
example : (validate_time_str "24:00").1 = false := by decide
example : (validate_time_str "23:59").1 = true := by decide
example : (validate_time_str "12:60").1 = false := by decide
example : (validate_time_str "1:2:3").1 = false := by decide
example : (validate_time_str "").1 = false := by decide
example : (validate_date_str "2025-11-26").1 = true := by decide
example : (validate_date_str "2025-6-1").1 = true := by decide
example : (validate_date_str "2025-02-29").1 = false := by decide
example : (validate_date_str "2024-02-29").1 = true := by decide
example : (validate_date_str "0000-01-01").1 = false := by decide
example : (validate_date_str "2025-13-01").1 = false := by decide
example : (validate_date_str "2025-04-31").1 = false := by decide
example : (validate_date_str "2025-00-10").1 = false := by decide
example : (validate_date_str "2025-06- 1").1 = true := by decide
example : (validate_date_str "2025-6- 9").1 = true := by decide
example : (validate_date_str "2025-06- 0").1 = false := by decide
example : (validate_date_str "2025- 6-01").1 = false := by decide
example : (validate_date_str "2025-06-  1").1 = false := by decide
example : (validate_date_str "2025-06- 12").1 = false := by decide
example : (validate_date_str "2024-02- 9").1 = true := by decide

/-- ASCII whitespace, as removed by Python's `str.strip()`. -/
def isSpace (c : Char) : Bool :=
  c = ' ' || c = '\t' || c = '\n' || c = '\x0d' || c = '\x0b' || c = '\x0c'

/-- Python `str.strip()`: drop whitespace from both ends. -/
def pyStrip (l : List Char) : List Char :=
  ((l.dropWhile isSpace).reverse.dropWhile isSpace).reverse

/-- Python `str.split(sep)` for a single-character separator: split on every
occurrence, keeping empty pieces. -/
def pySplit (sep : Char) : List Char → List (List Char)
  | [] => [[]]
  | c :: rest =>
      if c = sep then [] :: pySplit sep rest
      else
        match pySplit sep rest with
        | r :: rs => (c :: r) :: rs
        | [] => [[c]]

/-- Python `datetime.time` order, `≤`: lexicographic on (hour, minute). -/
def timeLE (a b : Nat × Nat) : Bool :=
  a.1 < b.1 || (a.1 = b.1 && a.2 ≤ b.2)

/-- Python `datetime.time` order, `<`: lexicographic on (hour, minute). -/
def timeLT (a b : Nat × Nat) : Bool :=
  a.1 < b.1 || (a.1 = b.1 && a.2 < b.2)

/-- The message of the `else` branch of the containment check (the source
builds it with an f-string). -/
def outsideMsg (appointment_time wh : String) : String :=
  "Appointment time " ++ appointment_time ++
    " is outside doctor's working hours (" ++ wh ++ ")."

/-- `utils.time_in_working_hours`: `None`/empty specification is permitted;
otherwise split the specification on every hyphen, demand exactly two parts,
parse each part after stripping whitespace, parse the candidate time, and
accept iff `start <= t < end`; every exception is caught and mapped to the
fixed format-error message. -/
def time_in_working_hours (working_hours : Option String)
    (appointment_time : String) : Bool × Option String :=
  match working_hours with
  | none => (true, none)
  | some wh =>
      if wh = "" then (true, none)
      else
        match pySplit '-' wh.data with
        | [p1, p2] =>
            match parse_time (pyStrip p1), parse_time (pyStrip p2),
                parse_time appointment_time.data with
            | some st, some en, some ap =>
                if timeLE st ap && timeLT ap en then (true, none)
                else (false, some (outsideMsg appointment_time wh))
            | _, _, _ =>
                (false, some "Invalid working hours or appointment time format.")
        | _ => (false, some "Doctor working hours must be in 'HH:MM-HH:MM' format.")

example : time_in_working_hours (some "09:00-17:00") "09:00" = (true, none) := by decide
example : (time_in_working_hours (some "09:00-17:00") "16:59").1 = true := by decide
example : (time_in_working_hours (some "09:00-17:00") "17:00").1 = false := by decide
example : (time_in_working_hours (some "09:00-17:00") "08:59").1 = false := by decide
example : time_in_working_hours none "99:99" = (true, none) := by decide
example : time_in_working_hours (some "") "xx" = (true, none) := by decide
example : time_in_working_hours (some "09:00 - 17:00") "10:00" = (true, none) := by decide
example : (time_in_working_hours (some "0900-1700") "10:00").2 =
    some "Invalid working hours or appointment time format." := by decide
example : (time_in_working_hours (some "09:00") "10:00").2 =
    some "Doctor working hours must be in 'HH:MM-HH:MM' format." := by decide

/-- Row of the `patients` table. -/
structure Patient where
  id : Nat
  name : String
  age : Option Int
  gender : Option String
  contact : Option String
  notes : Option String
deriving DecidableEq

/-- Row of the `doctors` table. -/
structure Doctor where
  id : Nat
  name : String
  specialty : Option String
  working_hours : Option String
  contact : Option String
  notes : Option String
deriving DecidableEq

/-- Row of the `appointments` table; `created_at` is the CURRENT_TIMESTAMP
default, modelled as an abstract clock value supplied at insert time. -/
structure Appointment where
  id : Nat
  doctor_id : Nat
  patient_id : Nat
  date : String
  time : String
  reason : Option String
  created_at : Nat
deriving DecidableEq

/-- The SQLite database state: the three tables plus the AUTOINCREMENT
counters (SQLite hands out strictly increasing rowids, never reusing one). -/
structure DB where
  patients : List Patient
  doctors : List Doctor
  appointments : List Appointment
  nextPatientId : Nat
  nextDoctorId : Nat
  nextApptId : Nat
deriving DecidableEq

/-- `database.initialize_db` on a fresh file: three empty tables, ids from 1. -/
def DB.empty : DB := ⟨[], [], [], 1, 1, 1⟩

/-- `database.add_patient`: INSERT, return the fresh rowid. -/
def add_patient (name : String) (age : Option Int) (gender contact notes : Option String)
    (db : DB) : Nat × DB :=
  (db.nextPatientId,
    { db with
        patients := db.patients ++ [⟨db.nextPatientId, name, age, gender, contact, notes⟩],
        nextPatientId := db.nextPatientId + 1 })

/-- `database.update_patient`: UPDATE all fields of the rows matching the id. -/
def update_patient (patient_id : Nat) (name : String) (age : Option Int)
    (gender contact notes : Option String) (db : DB) : DB :=
  { db with
      patients := db.patients.map fun p =>
        if p.id = patient_id then
          { p with name := name, age := age, gender := gender,
                   contact := contact, notes := notes }
        else p }

/-- `database.delete_patient`: DELETE FROM patients WHERE id = ?; appointments
are left untouched. -/
def delete_patient (patient_id : Nat) (db : DB) : DB :=
  { db with patients := db.patients.filter fun p => p.id ≠ patient_id }

/-- `database.add_doctor`: INSERT, return the fresh rowid. -/
def add_doctor (name : String) (specialty working_hours contact notes : Option String)
    (db : DB) : Nat × DB :=
  (db.nextDoctorId,
    { db with
        doctors := db.doctors ++
          [⟨db.nextDoctorId, name, specialty, working_hours, contact, notes⟩],
        nextDoctorId := db.nextDoctorId + 1 })

/-- `database.update_doctor`: UPDATE all fields of the rows matching the id. -/
def update_doctor (doctor_id : Nat) (name : String)
    (specialty working_hours contact notes : Option String) (db : DB) : DB :=
  { db with
      doctors := db.doctors.map fun d =>
        if d.id = doctor_id then
          { d with name := name, specialty := specialty, working_hours := working_hours,
                   contact := contact, notes := notes }
        else d }

/-- `database.delete_doctor`: first DELETE the appointments referencing the
doctor, then DELETE the doctor row itself. -/
def delete_doctor (doctor_id : Nat) (db : DB) : DB :=
  { db with
      appointments := db.appointments.filter fun a => a.doctor_id ≠ doctor_id,
      doctors := db.doctors.filter fun d => d.id ≠ doctor_id }

/-- Key match for the UNIQUE (doctor_id, date, time) constraint. -/
def matchesKey (doctor_id : Nat) (date time : String) (a : Appointment) : Prop :=
  a.doctor_id = doctor_id ∧ a.date = date ∧ a.time = time

instance (doctor_id : Nat) (date time : String) (a : Appointment) :
    Decidable (matchesKey doctor_id date time a) := by
  unfold matchesKey; infer_instance

/-- The text of the `sqlite3.IntegrityError` raised by a violation of the
UNIQUE (doctor_id, date, time) index, as returned by `str(e)`. -/
def uniqueErrMsg : String :=
  "UNIQUE constraint failed: appointments.doctor_id, appointments.date, appointments.time"

/-- `database.add_appointment`: attempt the INSERT; the engine rejects it with
an `IntegrityError` exactly when a row with the same (doctor_id, date, time)
already exists, in which case the caught error is returned as
`(False, str(e))` and the state is unchanged; otherwise the row is inserted
with a fresh rowid and the CURRENT_TIMESTAMP default and `(True, None)` is
returned. -/
def add_appointment (doctor_id patient_id : Nat) (date time : String)
    (reason : Option String) (now : Nat) (db : DB) : (Bool × Option String) × DB :=
  if _h : ∃ a ∈ db.appointments, matchesKey doctor_id date time a then
    ((false, some uniqueErrMsg), db)
  else
    ((true, none),
      { db with
          appointments := db.appointments ++
            [⟨db.nextApptId, doctor_id, patient_id, date, time, reason, now⟩],
          nextApptId := db.nextApptId + 1 })

/-- `database.delete_appointment`: DELETE FROM appointments WHERE id = ?. -/
def delete_appointment (appointment_id : Nat) (db : DB) : DB :=
  { db with appointments := db.appointments.filter fun a => a.id ≠ appointment_id }

/-- Number of appointment rows with the given (doctor_id, date, time). -/
def countMatching (db : DB) (doctor_id : Nat) (date time : String) : Nat :=
  db.appointments.countP fun a => decide (matchesKey doctor_id date time a)

/-- The double-booking invariant: no two distinct appointment rows share a
(doctor_id, date, time) triple. -/
def noDoubleBooking (l : List Appointment) : Prop :=
  l.Pairwise fun a b => ¬(a.doctor_id = b.doctor_id ∧ a.date = b.date ∧ a.time = b.time)

/-- States reachable from a fresh database by the public operations of
`database.py` (patients and doctors: add/update/delete; appointments:
add/delete — the module exposes no appointment update). -/
inductive Reachable : DB → Prop
  | empty : Reachable DB.empty
  | addP (n : String) (a : Option Int) (g c no : Option String) {s : DB} :
      Reachable s → Reachable (add_patient n a g c no s).2
  | updP (pid : Nat) (n : String) (a : Option Int) (g c no : Option String) {s : DB} :
      Reachable s → Reachable (update_patient pid n a g c no s)
  | delP (pid : Nat) {s : DB} : Reachable s → Reachable (delete_patient pid s)
  | addD (n : String) (sp wh c no : Option String) {s : DB} :
      Reachable s → Reachable (add_doctor n sp wh c no s).2
  | updD (did : Nat) (n : String) (sp wh c no : Option String) {s : DB} :
      Reachable s → Reachable (update_doctor did n sp wh c no s)
  | delD (did : Nat) {s : DB} : Reachable s → Reachable (delete_doctor did s)
  | addA (did pid : Nat) (d t : String) (r : Option String) (now : Nat) {s : DB} :
      Reachable s → Reachable (add_appointment did pid d t r now s).2
  | delA (aid : Nat) {s : DB} : Reachable s → Reachable (delete_appointment aid s)

/-- The amended acceptance condition for time strings: a one-or-two-digit
hour of value at most 23 and a one-or-two-digit minute of value at most 59,
joined by a colon, nothing else. -/
def timeLang (s : String) : Prop :=
  ∃ hs ms : List Char, s.data = hs ++ ':' :: ms ∧
    (hs.length = 1 ∨ hs.length = 2) ∧ (ms.length = 1 ∨ ms.length = 2) ∧
    (∀ c ∈ hs, isDig c = true) ∧ (∀ c ∈ ms, isDig c = true) ∧
    digitsVal hs ≤ 23 ∧ digitsVal ms ≤ 59

/-- The amended acceptance condition for date strings: a four-digit year of
value at least 1, a one-or-two-digit month of value 1 to 12 and a day field
fitting the (leap-aware) month, joined by hyphens, nothing else.  The day
field is either one or two digits, or — matching the space-padded
alternative of CPython's `%d` regex — a single space followed by a nonzero
digit. -/
def dateLang (s : String) : Prop :=
  ∃ ys ms ds : List Char, s.data = ys ++ '-' :: (ms ++ '-' :: ds) ∧
    ys.length = 4 ∧ (ms.length = 1 ∨ ms.length = 2) ∧
    (∀ c ∈ ys, isDig c = true) ∧ (∀ c ∈ ms, isDig c = true) ∧
    1 ≤ digitsVal ys ∧ 1 ≤ digitsVal ms ∧ digitsVal ms ≤ 12 ∧
    (((ds.length = 1 ∨ ds.length = 2) ∧ (∀ c ∈ ds, isDig c = true) ∧
        1 ≤ digitsVal ds ∧
        digitsVal ds ≤ daysInMonth (digitsVal ys) (digitsVal ms)) ∨
      (∃ b, ds = [' ', b] ∧ isDig b = true ∧ 1 ≤ digitVal b ∧
        digitVal b ≤ daysInMonth (digitsVal ys) (digitsVal ms)))

/-- Acceptance condition asserted by claim C6, following its words: exactly a
2-digit hour in 00-23 and a 2-digit minute in 00-59 joined by a colon. -/
def claimedTimeFormat (s : String) : Bool :=
  match s.data with
  | [h1, h2, c, m1, m2] =>
      c = ':' && isDig h1 && isDig h2 && isDig m1 && isDig m2 &&
        decide (10 * digitVal h1 + digitVal h2 ≤ 23) &&
        decide (10 * digitVal m1 + digitVal m2 ≤ 59)
  | _ => false

/-- Acceptance condition asserted by claim C7, following its words: exactly a
4-digit year, a 2-digit month 01-12 and a 2-digit day valid for that month,
joined by hyphens. -/
def claimedDateFormat (s : String) : Bool :=
  match s.data with
  | [y1, y2, y3, y4, s1, m1, m2, s2, d1, d2] =>
      s1 = '-' && s2 = '-' &&
        isDig y1 && isDig y2 && isDig y3 && isDig y4 &&
        isDig m1 && isDig m2 && isDig d1 && isDig d2 &&
        decide (1 ≤ 10 * digitVal m1 + digitVal m2) &&
        decide (10 * digitVal m1 + digitVal m2 ≤ 12) &&
        decide (1 ≤ 10 * digitVal d1 + digitVal d2) &&
        decide (10 * digitVal d1 + digitVal d2 ≤
          daysInMonth (digitsVal [y1, y2, y3, y4]) (10 * digitVal m1 + digitVal m2))
  | _ => false

/-! ### Characterisation of the strptime parsers -/

theorem digitVal_le_nine {c : Char} (h : isDig c = true) : digitVal c ≤ 9 := by
  simp [isDig] at h
  simp [digitVal]
  omega

theorem ne_of_isDig_of_not {c s : Char} (hc : isDig c = true) (hs : isDig s = false) :
    c ≠ s := by
  intro h
  rw [h] at hc
  simp [hc] at hs

theorem digitsVal_one (a : Char) : digitsVal [a] = digitVal a := by
  simp [digitsVal, List.foldl]

theorem digitsVal_two (a b : Char) : digitsVal [a, b] = 10 * digitVal a + digitVal b := by
  simp [digitsVal, List.foldl]

theorem fieldOf_eq_some_iff {lo hi : Nat} (h9 : 9 ≤ hi) (l : List Char) (v : Nat) :
    fieldOf lo hi l = some v ↔
      (l.length = 1 ∨ l.length = 2) ∧ (∀ c ∈ l, isDig c = true) ∧
      digitsVal l = v ∧ lo ≤ v ∧ v ≤ hi := by
  rcases l with _ | ⟨a, _ | ⟨b, _ | ⟨c, t⟩⟩⟩
  · simp [fieldOf]
  · simp only [fieldOf]
    constructor
    · intro h
      by_cases hd : (isDig a && decide (lo ≤ digitVal a)) = true
      · rw [if_pos hd] at h
        simp only [Bool.and_eq_true, decide_eq_true_eq] at hd
        obtain ⟨hda, hlo⟩ := hd
        have hv : digitVal a = v := by
          injection h
        refine ⟨Or.inl rfl, ?_, ?_, ?_, ?_⟩
        · intro x hx
          simp at hx
          rw [hx]; exact hda
        · rw [digitsVal_one, hv]
        · omega
        · have := digitVal_le_nine hda
          omega
      · rw [if_neg hd] at h
        exact absurd h (by simp)
    · rintro ⟨_, hdig, hval, hlo, _⟩
      have hda : isDig a = true := hdig a (by simp)
      rw [digitsVal_one] at hval
      rw [if_pos (by simp [hda]; omega)]
      rw [hval]
  · simp only [fieldOf]
    constructor
    · intro h
      by_cases hd : (isDig a && isDig b &&
          decide ((lo ≤ 10 * digitVal a + digitVal b && 10 * digitVal a + digitVal b ≤ hi) = true)) = true
      · rw [if_pos hd] at h
        simp only [Bool.and_eq_true, decide_eq_true_eq] at hd
        obtain ⟨⟨hda, hdb⟩, hlo2, hhi2⟩ := hd
        have hv : 10 * digitVal a + digitVal b = v := by injection h
        refine ⟨Or.inr rfl, ?_, ?_, ?_, ?_⟩
        · intro x hx
          simp at hx
          rcases hx with hx | hx
          · rw [hx]; exact hda
          · rw [hx]; exact hdb
        · rw [digitsVal_two, hv]
        · omega
        · omega
      · rw [if_neg hd] at h
        exact absurd h (by simp)
    · rintro ⟨_, hdig, hval, hlo, hhi⟩
      have hda : isDig a = true := hdig a (by simp)
      have hdb : isDig b = true := hdig b (by simp)
      rw [digitsVal_two] at hval
      rw [if_pos (by simp [hda, hdb]; omega)]
      rw [hval]
  · simp only [fieldOf]
    constructor
    · intro h
      exact absurd h (by simp)
    · rintro ⟨hlen, _⟩
      rcases hlen with h | h <;> simp at h

theorem fieldOf_some_shape {lo hi v : Nat} {f : List Char} (h : fieldOf lo hi f = some v) :
    (∃ x, f = [x] ∧ isDig x = true) ∨
      (∃ x y, f = [x, y] ∧ isDig x = true ∧ isDig y = true) := by
  have h9 : fieldOf lo hi f ≠ none := by rw [h]; simp
  rcases f with _ | ⟨a, _ | ⟨b, _ | ⟨c, t⟩⟩⟩
  · simp [fieldOf] at h9
  · left
    refine ⟨a, rfl, ?_⟩
    simp only [fieldOf] at h
    by_cases hd : (isDig a && decide (lo ≤ digitVal a)) = true
    · simp only [Bool.and_eq_true] at hd
      exact hd.1
    · rw [if_neg hd] at h
      exact absurd h (by simp)
  · right
    refine ⟨a, b, rfl, ?_⟩
    simp only [fieldOf] at h
    by_cases hd : (isDig a && isDig b &&
        decide ((lo ≤ 10 * digitVal a + digitVal b && 10 * digitVal a + digitVal b ≤ hi) = true)) = true
    · simp only [Bool.and_eq_true] at hd
      exact ⟨hd.1.1, hd.1.2⟩
    · rw [if_neg hd] at h
      exact absurd h (by simp)
  · simp [fieldOf] at h9

theorem twoFieldsOf_eq_some_iff {sep : Char} (hsep : isDig sep = false)
    (lo1 hi1 lo2 hi2 : Nat) (l : List Char) (p : Nat × Nat) :
    twoFieldsOf sep lo1 hi1 lo2 hi2 l = some p ↔
      ∃ f s, l = f ++ sep :: s ∧
        fieldOf lo1 hi1 f = some p.1 ∧ fieldOf lo2 hi2 s = some p.2 := by
  rcases l with _ | ⟨a, _ | ⟨b, rest⟩⟩
  · constructor
    · intro h
      simp [twoFieldsOf] at h
    · rintro ⟨f, s, heq, hf, hs⟩
      rcases f with _ | ⟨x, f'⟩ <;> simp at heq
  · constructor
    · intro h
      simp [twoFieldsOf] at h
    · rintro ⟨f, s, heq, hf, hs⟩
      rcases f with _ | ⟨x, f'⟩
      · simp at heq
        obtain ⟨h1, h2⟩ := heq
        rw [h2] at hs
        simp [fieldOf] at hs
      · simp at heq
  · by_cases hb : b = sep
    · subst hb
      constructor
      · intro h
        simp only [twoFieldsOf, if_pos rfl] at h
        rcases h1 : fieldOf lo1 hi1 [a] with _ | x <;>
          rcases h2 : fieldOf lo2 hi2 rest with _ | y <;>
            rw [h1, h2] at h <;> simp at h
        subst h
        exact ⟨[a], rest, rfl, by rw [h1], by rw [h2]⟩
      · rintro ⟨f, s, heq, hf, hs⟩
        rcases fieldOf_some_shape hf with ⟨x, hfx, hdx⟩ | ⟨x, y, hfxy, hdx, hdy⟩
        · subst hfx
          simp at heq
          obtain ⟨hax, hrs⟩ := heq
          subst hax
          subst hrs
          simp [twoFieldsOf, hf, hs]
        · subst hfxy
          simp at heq
          exact absurd heq.2.1.symm (ne_of_isDig_of_not hdy hsep)
    · rcases rest with _ | ⟨c, rest2⟩
      · constructor
        · intro h
          simp [twoFieldsOf, hb] at h
        · rintro ⟨f, s, heq, hf, hs⟩
          rcases fieldOf_some_shape hf with ⟨x, hfx, _⟩ | ⟨x, y, hfxy, _, _⟩
          · subst hfx
            simp at heq
            exact absurd heq.2.1 hb
          · subst hfxy
            simp at heq
      · by_cases hc : c = sep
        · subst hc
          constructor
          · intro h
            simp only [twoFieldsOf, if_neg hb, if_pos rfl] at h
            rcases h1 : fieldOf lo1 hi1 [a, b] with _ | x <;>
              rcases h2 : fieldOf lo2 hi2 rest2 with _ | y <;>
                rw [h1, h2] at h <;> simp at h
            subst h
            exact ⟨[a, b], rest2, rfl, by rw [h1], by rw [h2]⟩
          · rintro ⟨f, s, heq, hf, hs⟩
            rcases fieldOf_some_shape hf with ⟨x, hfx, hdx⟩ | ⟨x, y, hfxy, hdx, hdy⟩
            · subst hfx
              simp at heq
              exact absurd heq.2.1 hb
            · subst hfxy
              simp at heq
              obtain ⟨hax, hby, hrs⟩ := heq
              subst hax
              subst hby
              subst hrs
              simp [twoFieldsOf, hb, hf, hs]
        · constructor
          · intro h
            simp [twoFieldsOf, hb, hc] at h
          · rintro ⟨f, s, heq, hf, hs⟩
            rcases fieldOf_some_shape hf with ⟨x, hfx, hdx⟩ | ⟨x, y, hfxy, hdx, hdy⟩
            · subst hfx
              simp at heq
              exact absurd heq.2.1 hb
            · subst hfxy
              simp at heq
              exact absurd heq.2.2.1 hc

theorem yearOf_eq_some_iff (l : List Char) (v : Nat) :
    yearOf l = some v ↔ l.length = 4 ∧ (∀ c ∈ l, isDig c = true) ∧ digitsVal l = v := by
  rcases l with _ | ⟨a, _ | ⟨b, _ | ⟨c, _ | ⟨d, _ | ⟨e, t⟩⟩⟩⟩⟩
  · constructor
    · intro h; simp [yearOf] at h
    · rintro ⟨hlen, -, -⟩; simp at hlen
  · constructor
    · intro h; simp [yearOf] at h
    · rintro ⟨hlen, -, -⟩; simp at hlen
  · constructor
    · intro h; simp [yearOf] at h
    · rintro ⟨hlen, -, -⟩; simp at hlen
  · constructor
    · intro h; simp [yearOf] at h
    · rintro ⟨hlen, -, -⟩; simp at hlen
  · simp only [yearOf]
    constructor
    · intro h
      by_cases hcond : (isDig a && isDig b && isDig c && isDig d) = true
      · rw [if_pos hcond] at h
        simp only [Bool.and_eq_true] at hcond
        obtain ⟨⟨⟨ha, hb⟩, hc⟩, hd⟩ := hcond
        have hv : digitsVal [a, b, c, d] = v := by injection h
        refine ⟨rfl, ?_, hv⟩
        intro x hx
        simp at hx
        rcases hx with hx | hx | hx | hx <;> rw [hx] <;> assumption
      · rw [if_neg hcond] at h
        exact absurd h (by simp)
    · rintro ⟨-, hdig, hval⟩
      have hcond : (isDig a && isDig b && isDig c && isDig d) = true := by
        simp [hdig a (by simp), hdig b (by simp), hdig c (by simp), hdig d (by simp)]
      rw [if_pos hcond, hval]
  · constructor
    · intro h; simp [yearOf] at h
    · rintro ⟨hlen, -, -⟩; simp at hlen

theorem dayOf_eq_some_iff (l : List Char) (v : Nat) :
    dayOf l = some v ↔
      ((l.length = 1 ∨ l.length = 2) ∧ (∀ c ∈ l, isDig c = true) ∧
        digitsVal l = v ∧ 1 ≤ v ∧ v ≤ 31) ∨
      (∃ b, l = [' ', b] ∧ isDig b = true ∧ digitVal b = v ∧ 1 ≤ v) := by
  rcases l with _ | ⟨a, _ | ⟨b, _ | ⟨c, t⟩⟩⟩
  · constructor
    · intro h
      simp [dayOf] at h
    · rintro (⟨hlen, -⟩ | ⟨b', hb', -⟩)
      · rcases hlen with h' | h' <;> simp at h'
      · simp at hb'
  · simp only [dayOf]
    constructor
    · intro h
      by_cases hd : (isDig a && decide (1 ≤ digitVal a)) = true
      · rw [if_pos hd] at h
        simp only [Bool.and_eq_true, decide_eq_true_eq] at hd
        obtain ⟨hda, hlo⟩ := hd
        have hv : digitVal a = v := by injection h
        left
        refine ⟨Or.inl rfl, ?_, ?_, ?_, ?_⟩
        · intro x hx
          simp at hx
          rw [hx]; exact hda
        · rw [digitsVal_one, hv]
        · omega
        · have := digitVal_le_nine hda
          omega
      · rw [if_neg hd] at h
        exact absurd h (by simp)
    · rintro (⟨-, hdig, hval, hlo, -⟩ | ⟨b', hb', -⟩)
      · have hda : isDig a = true := hdig a (by simp)
        rw [digitsVal_one] at hval
        rw [if_pos (by simp [hda]; omega)]
        rw [hval]
      · simp at hb'
  · simp only [dayOf]
    by_cases ha : a = ' '
    · subst ha
      rw [if_pos rfl]
      constructor
      · intro h
        by_cases hd : (isDig b && decide (1 ≤ digitVal b)) = true
        · rw [if_pos hd] at h
          simp only [Bool.and_eq_true, decide_eq_true_eq] at hd
          have hv : digitVal b = v := by injection h
          right
          exact ⟨b, rfl, hd.1, hv, by omega⟩
        · rw [if_neg hd] at h
          exact absurd h (by simp)
      · rintro (⟨-, hdig, -⟩ | ⟨b', hb', hdb, hv, hlo⟩)
        · exact absurd (hdig ' ' (by simp)) (by decide)
        · have hbb : b = b' := by
            simp at hb'
            exact hb'
          subst hbb
          rw [if_pos (by simp [hdb]; omega)]
          rw [hv]
    · rw [if_neg ha]
      constructor
      · intro h
        by_cases hd : (isDig a && isDig b &&
            decide ((1 ≤ 10 * digitVal a + digitVal b &&
              10 * digitVal a + digitVal b ≤ 31) = true)) = true
        · rw [if_pos hd] at h
          simp only [Bool.and_eq_true, decide_eq_true_eq] at hd
          obtain ⟨⟨hda, hdb⟩, hlo2, hhi2⟩ := hd
          have hv : 10 * digitVal a + digitVal b = v := by injection h
          left
          refine ⟨Or.inr rfl, ?_, ?_, ?_, ?_⟩
          · intro x hx
            simp at hx
            rcases hx with hx | hx
            · rw [hx]; exact hda
            · rw [hx]; exact hdb
          · rw [digitsVal_two, hv]
          · omega
          · omega
        · rw [if_neg hd] at h
          exact absurd h (by simp)
      · rintro (⟨-, hdig, hval, hlo, hhi⟩ | ⟨b', hb', -⟩)
        · have hda : isDig a = true := hdig a (by simp)
          have hdb : isDig b = true := hdig b (by simp)
          rw [digitsVal_two] at hval
          rw [if_pos (by simp [hda, hdb]; omega)]
          rw [hval]
        · simp at hb'
          exact absurd hb'.1 ha
  · simp only [dayOf]
    constructor
    · intro h
      exact absurd h (by simp)
    · rintro (⟨hlen, -⟩ | ⟨b', hb', -⟩)
      · rcases hlen with h' | h' <;> simp at h'
      · simp at hb'

theorem mdOf_eq_some_iff (l : List Char) (p : Nat × Nat) :
    mdOf l = some p ↔
      ∃ f s, l = f ++ '-' :: s ∧
        fieldOf 1 12 f = some p.1 ∧ dayOf s = some p.2 := by
  rcases l with _ | ⟨a, _ | ⟨b, rest⟩⟩
  · constructor
    · intro h
      simp [mdOf] at h
    · rintro ⟨f, s, heq, hf, hs⟩
      rcases f with _ | ⟨x, f'⟩ <;> simp at heq
  · constructor
    · intro h
      simp [mdOf] at h
    · rintro ⟨f, s, heq, hf, hs⟩
      rcases f with _ | ⟨x, f'⟩
      · simp at heq
        obtain ⟨h1, h2⟩ := heq
        rw [h2] at hs
        simp [dayOf] at hs
      · simp at heq
  · by_cases hb : b = '-'
    · subst hb
      constructor
      · intro h
        simp only [mdOf, if_pos rfl] at h
        rcases h1 : fieldOf 1 12 [a] with _ | x <;>
          rcases h2 : dayOf rest with _ | y <;>
            rw [h1, h2] at h <;> simp at h
        subst h
        exact ⟨[a], rest, rfl, by rw [h1], by rw [h2]⟩
      · rintro ⟨f, s, heq, hf, hs⟩
        rcases fieldOf_some_shape hf with ⟨x, hfx, hdx⟩ | ⟨x, y, hfxy, hdx, hdy⟩
        · subst hfx
          simp at heq
          obtain ⟨hax, hrs⟩ := heq
          subst hax
          subst hrs
          simp [mdOf, hf, hs]
        · subst hfxy
          simp at heq
          exact absurd heq.2.1.symm (ne_of_isDig_of_not hdy (by decide))
    · rcases rest with _ | ⟨c, rest2⟩
      · constructor
        · intro h
          simp [mdOf, hb] at h
        · rintro ⟨f, s, heq, hf, hs⟩
          rcases fieldOf_some_shape hf with ⟨x, hfx, _⟩ | ⟨x, y, hfxy, _, _⟩
          · subst hfx
            simp at heq
            exact absurd heq.2.1 hb
          · subst hfxy
            simp at heq
      · by_cases hc : c = '-'
        · subst hc
          constructor
          · intro h
            simp only [mdOf, if_neg hb, if_pos rfl] at h
            rcases h1 : fieldOf 1 12 [a, b] with _ | x <;>
              rcases h2 : dayOf rest2 with _ | y <;>
                rw [h1, h2] at h <;> simp at h
            subst h
            exact ⟨[a, b], rest2, rfl, by rw [h1], by rw [h2]⟩
          · rintro ⟨f, s, heq, hf, hs⟩
            rcases fieldOf_some_shape hf with ⟨x, hfx, hdx⟩ | ⟨x, y, hfxy, hdx, hdy⟩
            · subst hfx
              simp at heq
              exact absurd heq.2.1 hb
            · subst hfxy
              simp at heq
              obtain ⟨hax, hby, hrs⟩ := heq
              subst hax
              subst hby
              subst hrs
              simp [mdOf, hb, hf, hs]
        · constructor
          · intro h
            simp [mdOf, hb, hc] at h
          · rintro ⟨f, s, heq, hf, hs⟩
            rcases fieldOf_some_shape hf with ⟨x, hfx, hdx⟩ | ⟨x, y, hfxy, hdx, hdy⟩
            · subst hfx
              simp at heq
              exact absurd heq.2.1 hb
            · subst hfxy
              simp at heq
              exact absurd heq.2.2.1 hc

theorem daysInMonth_le_31 (y m : Nat) : daysInMonth y m ≤ 31 := by
  unfold daysInMonth
  split
  · split <;> omega
  · split <;> omega

theorem strptimeYMD_eq_some_iff (l : List Char) (y m d : Nat) :
    strptimeYMD l = some (y, m, d) ↔
      ∃ ys rest, l = ys ++ '-' :: rest ∧ yearOf ys = some y ∧ mdOf rest = some (m, d) ∧
        1 ≤ y ∧ d ≤ daysInMonth y m := by
  constructor
  · intro h
    rcases l with _ | ⟨a, _ | ⟨b, _ | ⟨c, _ | ⟨d', _ | ⟨e, rest⟩⟩⟩⟩⟩ <;>
      try simp [strptimeYMD] at h
    by_cases he : e = '-'
    · subst he
      simp only [strptimeYMD, if_pos rfl] at h
      rcases h1 : yearOf [a, b, c, d'] with _ | yv <;> rw [h1] at h
      · simp at h
      · rcases h2 : mdOf rest with _ | ⟨mv, dv⟩ <;> rw [h2] at h
        · simp at h
        · simp at h
          obtain ⟨⟨hy1, hfit⟩, hy, hm, hd⟩ := h
          subst hy; subst hm; subst hd
          exact ⟨[a, b, c, d'], rest, rfl, h1, h2, hy1, hfit⟩
    · simp [strptimeYMD, he] at h
  · rintro ⟨ys, rest, heq, hy, hmd, h1y, hdm⟩
    have hlen : ys.length = 4 := ((yearOf_eq_some_iff ys y).mp hy).1
    rcases ys with _ | ⟨a, _ | ⟨b, _ | ⟨c, _ | ⟨d', _ | ⟨e, t⟩⟩⟩⟩⟩ <;> simp at hlen
    subst heq
    simp only [List.cons_append, List.nil_append, strptimeYMD, if_pos rfl]
    rw [hy, hmd]
    simp [h1y, hdm]

theorem strptimeHM_isSome_iff (s : String) :
    (∃ p, strptimeHM s.data = some p) ↔ timeLang s := by
  constructor
  · rintro ⟨p, hp⟩
    obtain ⟨f, s', heq, hf, hs'⟩ :=
      (twoFieldsOf_eq_some_iff (by decide) 0 23 0 59 s.data p).mp hp
    have Hf := (fieldOf_eq_some_iff (by norm_num) f p.1).mp hf
    have Hs := (fieldOf_eq_some_iff (by norm_num) s' p.2).mp hs'
    exact ⟨f, s', heq, Hf.1, Hs.1, Hf.2.1, Hs.2.1,
      by rw [Hf.2.2.1]; exact Hf.2.2.2.2, by rw [Hs.2.2.1]; exact Hs.2.2.2.2⟩
  · rintro ⟨hs, ms, heq, hl1, hl2, hd1, hd2, hb1, hb2⟩
    refine ⟨(digitsVal hs, digitsVal ms), ?_⟩
    refine (twoFieldsOf_eq_some_iff (by decide) 0 23 0 59 s.data _).mpr
      ⟨hs, ms, heq, ?_, ?_⟩
    · exact (fieldOf_eq_some_iff (by norm_num) hs _).mpr
        ⟨hl1, hd1, rfl, Nat.zero_le _, hb1⟩
    · exact (fieldOf_eq_some_iff (by norm_num) ms _).mpr
        ⟨hl2, hd2, rfl, Nat.zero_le _, hb2⟩

theorem strptimeYMD_isSome_iff (s : String) :
    (∃ p, strptimeYMD s.data = some p) ↔ dateLang s := by
  constructor
  · rintro ⟨⟨y, m, d⟩, hp⟩
    obtain ⟨ys, rest, heq, hy, hmd, h1y, hdm⟩ :=
      (strptimeYMD_eq_some_iff s.data y m d).mp hp
    obtain ⟨ms, ds, heq2, hm, hd⟩ := (mdOf_eq_some_iff rest (m, d)).mp hmd
    have Hy := (yearOf_eq_some_iff ys y).mp hy
    have Hm := (fieldOf_eq_some_iff (by norm_num) ms (m, d).1).mp hm
    refine ⟨ys, ms, ds, by rw [heq, heq2], Hy.1, Hm.1, Hy.2.1, Hm.2.1,
      ?_, ?_, ?_, ?_⟩
    · rw [Hy.2.2]; exact h1y
    · rw [Hm.2.2.1]; exact Hm.2.2.2.1
    · rw [Hm.2.2.1]; exact Hm.2.2.2.2
    · rcases (dayOf_eq_some_iff ds (m, d).2).mp hd with
        ⟨hld, hdd, hval, h1d, -⟩ | ⟨b, hbds, hdb, hval, h1d⟩
      · left
        refine ⟨hld, hdd, ?_, ?_⟩
        · rw [hval]; exact h1d
        · rw [hval, Hy.2.2, Hm.2.2.1]; exact hdm
      · right
        refine ⟨b, hbds, hdb, ?_, ?_⟩
        · rw [hval]; exact h1d
        · rw [hval, Hy.2.2, Hm.2.2.1]; exact hdm
  · rintro ⟨ys, ms, ds, heq, hl4, hlm, hdy, hdm2, h1y, h1m, h12, hday⟩
    rcases hday with ⟨hld, hdd, h1d, hfit⟩ | ⟨b, hbds, hdb, h1b, hfit⟩
    · refine ⟨(digitsVal ys, digitsVal ms, digitsVal ds), ?_⟩
      refine (strptimeYMD_eq_some_iff s.data _ _ _).mpr
        ⟨ys, ms ++ '-' :: ds, heq, ?_, ?_, h1y, hfit⟩
      · exact (yearOf_eq_some_iff ys _).mpr ⟨hl4, hdy, rfl⟩
      · refine (mdOf_eq_some_iff _ _).mpr ⟨ms, ds, rfl, ?_, ?_⟩
        · exact (fieldOf_eq_some_iff (by norm_num) ms _).mpr ⟨hlm, hdm2, rfl, h1m, h12⟩
        · exact (dayOf_eq_some_iff ds _).mpr
            (Or.inl ⟨hld, hdd, rfl, h1d, le_trans hfit (daysInMonth_le_31 _ _)⟩)
    · subst hbds
      refine ⟨(digitsVal ys, digitsVal ms, digitVal b), ?_⟩
      refine (strptimeYMD_eq_some_iff s.data _ _ _).mpr
        ⟨ys, ms ++ '-' :: [' ', b], heq, ?_, ?_, h1y, hfit⟩
      · exact (yearOf_eq_some_iff ys _).mpr ⟨hl4, hdy, rfl⟩
      · refine (mdOf_eq_some_iff _ _).mpr ⟨ms, [' ', b], rfl, ?_, ?_⟩
        · exact (fieldOf_eq_some_iff (by norm_num) ms _).mpr ⟨hlm, hdm2, rfl, h1m, h12⟩
        · exact (dayOf_eq_some_iff [' ', b] _).mpr (Or.inr ⟨b, rfl, hdb, rfl, h1b⟩)

theorem validate_time_str_fst_iff (s : String) :
    (validate_time_str s).1 = true ↔ timeLang s := by
  rw [← strptimeHM_isSome_iff]
  unfold validate_time_str
  rcases h : strptimeHM s.data with _ | p <;> simp [h]

theorem validate_date_str_fst_iff (s : String) :
    (validate_date_str s).1 = true ↔ dateLang s := by
  rw [← strptimeYMD_isSome_iff]
  unfold validate_date_str
  rcases h : strptimeYMD s.data with _ | p <;> simp [h]

/-! ### The working-hours containment check -/

theorem pySplit_ne_empty (p1 p2 : List Char) (h : pySplit '-' [] = [p1, p2]) : False := by
  simp [pySplit] at h

theorem wh_ne_empty {wh : String} {p1 p2 : List Char}
    (h : pySplit '-' wh.data = [p1, p2]) : wh ≠ "" := by
  intro h0
  subst h0
  exact pySplit_ne_empty p1 p2 h

theorem time_in_working_hours_parsed (wh t : String) (p1 p2 : List Char)
    (st en tt : Nat × Nat)
    (hsplit : pySplit '-' wh.data = [p1, p2])
    (hst : parse_time (pyStrip p1) = some st)
    (hen : parse_time (pyStrip p2) = some en)
    (htt : parse_time t.data = some tt) :
    time_in_working_hours (some wh) t =
      (if timeLE st tt && timeLT tt en then ((true : Bool), (none : Option String))
       else (false, some (outsideMsg t wh))) := by
  have hne : wh ≠ "" := wh_ne_empty hsplit
  simp only [time_in_working_hours, hsplit, hst, hen, htt]
  rw [if_neg hne]

theorem timeLE_LT_asymm {a b c : Nat × Nat} (h1 : timeLE a b = true)
    (h2 : timeLT b c = true) (h3 : timeLT c a = true) : False := by
  simp only [timeLE, timeLT, Bool.or_eq_true, Bool.and_eq_true,
    decide_eq_true_eq] at h1 h2 h3
  omega

/-- C3: the working-hours check implements the half-open interval
[start, end): for every specification that splits on the hyphen into two
parts whose stripped forms parse as clock times, and every candidate time
that parses, the candidate is permitted iff start ≤ t and t < end; hence
with "09:00-17:00" the times "09:00" and "16:59" are permitted while
"17:00" and "08:59" are rejected, and when start is after end no candidate
at all is permitted. -/
theorem C3_half_open_working_hours :
    (∀ (wh t : String) (p1 p2 : List Char) (st en tt : Nat × Nat),
      pySplit '-' wh.data = [p1, p2] →
      parse_time (pyStrip p1) = some st →
      parse_time (pyStrip p2) = some en →
      parse_time t.data = some tt →
      ((time_in_working_hours (some wh) t).1 = true ↔
        (timeLE st tt = true ∧ timeLT tt en = true))) ∧
    (time_in_working_hours (some "09:00-17:00") "09:00").1 = true ∧
    (time_in_working_hours (some "09:00-17:00") "16:59").1 = true ∧
    (time_in_working_hours (some "09:00-17:00") "17:00").1 = false ∧
    (time_in_working_hours (some "09:00-17:00") "08:59").1 = false ∧
    (∀ (wh t : String) (p1 p2 : List Char) (st en tt : Nat × Nat),
      pySplit '-' wh.data = [p1, p2] →
      parse_time (pyStrip p1) = some st →
      parse_time (pyStrip p2) = some en →
      parse_time t.data = some tt →
      timeLT en st = true →
      (time_in_working_hours (some wh) t).1 = false) := by
  have main : ∀ (wh t : String) (p1 p2 : List Char) (st en tt : Nat × Nat),
      pySplit '-' wh.data = [p1, p2] →
      parse_time (pyStrip p1) = some st →
      parse_time (pyStrip p2) = some en →
      parse_time t.data = some tt →
      ((time_in_working_hours (some wh) t).1 = true ↔
        (timeLE st tt = true ∧ timeLT tt en = true)) := by
    intro wh t p1 p2 st en tt hsplit hst hen htt
    rw [time_in_working_hours_parsed wh t p1 p2 st en tt hsplit hst hen htt]
    by_cases hc : (timeLE st tt && timeLT tt en) = true
    · rw [if_pos hc]
      simp only [Bool.and_eq_true] at hc
      simp [hc]
    · rw [if_neg hc]
      simp only [Bool.and_eq_true] at hc
      simp [hc]
  refine ⟨main, by decide, by decide, by decide, by decide, ?_⟩
  intro wh t p1 p2 st en tt hsplit hst hen htt hgt
  cases hb : (time_in_working_hours (some wh) t).1
  · rfl
  · obtain ⟨hle, hlt⟩ := (main wh t p1 p2 st en tt hsplit hst hen htt).mp hb
    exact (timeLE_LT_asymm hle hlt hgt).elim

/-- Witness for C3 at the concrete specification "09:00-17:00" and the
in-range candidate "10:30". -/
theorem C3_half_open_working_hours_witness :
    (time_in_working_hours (some "09:00-17:00") "10:30").1 = true :=
  (C3_half_open_working_hours.1 "09:00-17:00" "10:30"
      ['0', '9', ':', '0', '0'] ['1', '7', ':', '0', '0']
      (9, 0) (17, 0) (10, 30)
      (by decide) (by decide) (by decide) (by decide)).mpr (by decide)

/-- C4: a null or empty working-hours specification permits every candidate
time, with no error message. -/
theorem C4_no_spec_always_permits (t : String) :
    time_in_working_hours none t = (true, none) ∧
    time_in_working_hours (some "") t = (true, none) :=
  ⟨rfl, rfl⟩

/-- C6 counterexample: the code accepts "9:30", whose hour is a single digit,
so acceptance is not restricted to the exactly-two-digit HH:MM form the
claim describes. -/
theorem C6_counterexample :
    (validate_time_str "9:30").1 = true ∧ claimedTimeFormat "9:30" = false := by
  decide

/-- C6 amended: time validation accepts exactly the strings made of a
one-or-two-digit hour of value at most 23 and a one-or-two-digit minute of
value at most 59 joined by a colon, and every other string fails with the
fixed human-readable message. -/
theorem C6_time_validation (s : String) :
    ((validate_time_str s).1 = true ↔ timeLang s) ∧
    (¬ timeLang s →
      validate_time_str s =
        (false, some "Time must be in HH:MM 24-hour format (e.g., 09:30).")) := by
  refine ⟨validate_time_str_fst_iff s, ?_⟩
  intro hnl
  unfold validate_time_str
  rcases h : strptimeHM s.data with _ | p
  · rfl
  · exact absurd ((strptimeHM_isSome_iff s).mp ⟨p, h⟩) hnl

/-- Witness for C6 at the concrete rejected input "25:00". -/
theorem C6_time_validation_witness :
    validate_time_str "25:00" =
      (false, some "Time must be in HH:MM 24-hour format (e.g., 09:30).") :=
  (C6_time_validation "25:00").2
    (fun hl => absurd ((C6_time_validation "25:00").1.mpr hl) (by decide))

/-- C7 counterexample: the code accepts "2025-6-1", whose month and day are
single digits, so acceptance is not restricted to the exactly-two-digit
YYYY-MM-DD form the claim describes. -/
theorem C7_counterexample :
    (validate_date_str "2025-6-1").1 = true ∧ claimedDateFormat "2025-6-1" = false := by
  decide

/-- C7 amended: date validation accepts exactly the strings made of a
four-digit year of value at least 1, a one-or-two-digit month 1-12 and a
day fitting that (leap-aware) month — written as one or two digits, or as a
space followed by a nonzero digit (the space-padded alternative of CPython's
`%d`) — joined by hyphens, and every other string fails with the fixed
human-readable message. -/
theorem C7_date_validation (s : String) :
    ((validate_date_str s).1 = true ↔ dateLang s) ∧
    (¬ dateLang s →
      validate_date_str s =
        (false, some "Date must be in YYYY-MM-DD format (e.g., 2025-11-26).")) := by
  refine ⟨validate_date_str_fst_iff s, ?_⟩
  intro hnl
  unfold validate_date_str
  rcases h : strptimeYMD s.data with _ | p
  · rfl
  · exact absurd ((strptimeYMD_isSome_iff s).mp ⟨p, h⟩) hnl

/-- Witness for C7 at the concrete rejected input "2025-13-01". -/
theorem C7_date_validation_witness :
    validate_date_str "2025-13-01" =
      (false, some "Date must be in YYYY-MM-DD format (e.g., 2025-11-26).") :=
  (C7_date_validation "2025-13-01").2
    (fun hl => absurd ((C7_date_validation "2025-13-01").1.mpr hl) (by decide))

/-- C10: the containment check is total — on every pair of inputs it returns
either permitted-with-no-message or rejected-with-a-message, never anything
else — and a candidate time that fails to parse, combined with a
specification whose two parts do parse, yields exactly the fixed
invalid-format message. -/
theorem C10_total_and_catch_all :
    (∀ (wh : Option String) (t : String),
      time_in_working_hours wh t = (true, none) ∨
      ∃ msg, time_in_working_hours wh t = (false, some msg)) ∧
    (∀ (wh t : String) (p1 p2 : List Char) (st en : Nat × Nat),
      pySplit '-' wh.data = [p1, p2] →
      parse_time (pyStrip p1) = some st →
      parse_time (pyStrip p2) = some en →
      parse_time t.data = none →
      time_in_working_hours (some wh) t =
        (false, some "Invalid working hours or appointment time format.")) := by
  constructor
  · intro wh t
    rcases wh with _ | wh
    · left; rfl
    · by_cases h0 : wh = ""
      · subst h0; left; rfl
      · rcases hs : pySplit '-' wh.data with _ | ⟨p1, _ | ⟨p2, _ | ⟨p3, ps⟩⟩⟩
        · right
          refine ⟨"Doctor working hours must be in 'HH:MM-HH:MM' format.", ?_⟩
          simp only [time_in_working_hours, hs]
          rw [if_neg h0]
        · right
          refine ⟨"Doctor working hours must be in 'HH:MM-HH:MM' format.", ?_⟩
          simp only [time_in_working_hours, hs]
          rw [if_neg h0]
        · rcases h1 : parse_time (pyStrip p1) with _ | st
          · right
            refine ⟨"Invalid working hours or appointment time format.", ?_⟩
            simp only [time_in_working_hours, hs, h1]
            rw [if_neg h0]
          · rcases h2 : parse_time (pyStrip p2) with _ | en
            · right
              refine ⟨"Invalid working hours or appointment time format.", ?_⟩
              simp only [time_in_working_hours, hs, h1, h2]
              rw [if_neg h0]
            · rcases h3 : parse_time t.data with _ | tt
              · right
                refine ⟨"Invalid working hours or appointment time format.", ?_⟩
                simp only [time_in_working_hours, hs, h1, h2, h3]
                rw [if_neg h0]
              · by_cases hc : (timeLE st tt && timeLT tt en) = true
                · left
                  simp only [time_in_working_hours, hs, h1, h2, h3]
                  rw [if_neg h0, if_pos hc]
                · right
                  refine ⟨outsideMsg t wh, ?_⟩
                  simp only [time_in_working_hours, hs, h1, h2, h3]
                  rw [if_neg h0, if_neg hc]
        · right
          refine ⟨"Doctor working hours must be in 'HH:MM-HH:MM' format.", ?_⟩
          simp only [time_in_working_hours, hs]
          rw [if_neg h0]
  · intro wh t p1 p2 st en hsplit hst hen htt
    have hne : wh ≠ "" := wh_ne_empty hsplit
    simp only [time_in_working_hours, hsplit, hst, hen, htt]
    rw [if_neg hne]

/-- Witness for C10 at the well-formed specification "09:00-17:00" and the
unparseable candidate "banana". -/
theorem C10_total_and_catch_all_witness :
    time_in_working_hours (some "09:00-17:00") "banana" =
      (false, some "Invalid working hours or appointment time format.") :=
  C10_total_and_catch_all.2 "09:00-17:00" "banana"
    ['0', '9', ':', '0', '0'] ['1', '7', ':', '0', '0'] (9, 0) (17, 0)
    (by decide) (by decide) (by decide) (by decide)

/-! ### The persistence layer -/

theorem countP_eq_one_of_noDouble {l : List Appointment} {did : Nat} {date time : String}
    (hnd : noDoubleBooking l) {a : Appointment} (ha : a ∈ l)
    (hk : matchesKey did date time a) :
    l.countP (fun x => decide (matchesKey did date time x)) = 1 := by
  unfold noDoubleBooking at hnd
  induction l with
  | nil => cases ha
  | cons x xs ih =>
      rw [List.pairwise_cons] at hnd
      obtain ⟨hx, hxs⟩ := hnd
      rw [List.countP_cons]
      by_cases hpx : matchesKey did date time x
      · have hzero : xs.countP (fun y => decide (matchesKey did date time y)) = 0 := by
          rw [List.countP_eq_zero]
          intro y hy
          simp only [decide_eq_true_eq]
          intro hpy
          exact hx y hy ⟨hpx.1.trans hpy.1.symm, hpx.2.1.trans hpy.2.1.symm,
            hpx.2.2.trans hpy.2.2.symm⟩
        simp [hzero, hpx]
      · have hax : a ≠ x := fun h => hpx (h ▸ hk)
        have ha' : a ∈ xs := by
          rcases List.mem_cons.mp ha with h | h
          · exact absurd h hax
          · exact h
        simp [hpx, ih hxs ha']

/-- Every database reachable by the public operations satisfies the
pairwise no-double-booking property of its appointments table. -/
theorem noDouble_of_reachable (s : DB) (h : Reachable s) :
    noDoubleBooking s.appointments := by
  induction h with
  | empty => exact List.Pairwise.nil
  | addP n a g c no hr ih => exact ih
  | updP pid n a g c no hr ih => exact ih
  | delP pid hr ih => exact ih
  | addD n sp wh c no hr ih => exact ih
  | updD did n sp wh c no hr ih => exact ih
  | delD did hr ih => exact List.Pairwise.filter _ ih
  | delA aid hr ih => exact List.Pairwise.filter _ ih
  | addA did pid d t r now hr ih =>
      rename_i s'
      unfold add_appointment
      by_cases hex : ∃ x ∈ s'.appointments, matchesKey did d t x
      · rw [dif_pos hex]
        exact ih
      · rw [dif_neg hex]
        unfold noDoubleBooking at ih ⊢
        rw [List.pairwise_append]
        refine ⟨ih, List.pairwise_singleton .., ?_⟩
        intro x hx y hy
        simp only [List.mem_singleton] at hy
        subst hy
        intro hcon
        exact hex ⟨x, hx, hcon.1, hcon.2.1, hcon.2.2⟩

theorem countP_le_one_of_noDouble {l : List Appointment} {did : Nat}
    {date time : String} (hnd : noDoubleBooking l) :
    l.countP (fun x => decide (matchesKey did date time x)) ≤ 1 := by
  unfold noDoubleBooking at hnd
  induction l with
  | nil => simp
  | cons x xs ih =>
      rw [List.pairwise_cons] at hnd
      obtain ⟨hx, hxs⟩ := hnd
      rw [List.countP_cons]
      by_cases hpx : matchesKey did date time x
      · have hzero : xs.countP (fun y => decide (matchesKey did date time y)) = 0 := by
          rw [List.countP_eq_zero]
          intro y hy
          simp only [decide_eq_true_eq]
          intro hpy
          exact hx y hy ⟨hpx.1.trans hpy.1.symm, hpx.2.1.trans hpy.2.1.symm,
            hpx.2.2.trans hpy.2.2.symm⟩
        simp [hzero, hpx]
      · simpa [hpx] using ih hxs

/-- C2: in every database state reachable from a fresh store by any sequence
of the public operations, each (doctor, date, time) triple is carried by at
most one appointment row. -/
theorem C2_unique_triple_invariant (s : DB) (h : Reachable s)
    (did : Nat) (date time : String) :
    countMatching s did date time ≤ 1 :=
  countP_le_one_of_noDouble (noDouble_of_reachable s h)

/-- Witness for C2 at the concrete reachable state obtained by one successful
booking on a fresh store. -/
theorem C2_unique_triple_invariant_witness :
    countMatching (add_appointment 1 1 "2025-06-01" "10:00" none 0 DB.empty).2
      1 "2025-06-01" "10:00" ≤ 1 :=
  C2_unique_triple_invariant _
    (Reachable.addA 1 1 "2025-06-01" "10:00" none 0 Reachable.empty)
    1 "2025-06-01" "10:00"

/-- C1: attempting to book a (doctor, date, time) triple that an existing
appointment already carries fails with the success flag false and the
integrity-error message, leaves the database state completely unchanged, and
the table afterwards still holds exactly one row with that triple. -/
theorem C1_double_booking_fails_unchanged (db : DB) (did pid : Nat)
    (date time : String) (reason : Option String) (now : Nat) (a : Appointment)
    (ha : a ∈ db.appointments) (hk : matchesKey did date time a)
    (hnd : noDoubleBooking db.appointments) :
    (add_appointment did pid date time reason now db).1 = (false, some uniqueErrMsg) ∧
    (add_appointment did pid date time reason now db).2 = db ∧
    countMatching (add_appointment did pid date time reason now db).2 did date time = 1 := by
  have hex : ∃ x ∈ db.appointments, matchesKey did date time x := ⟨a, ha, hk⟩
  unfold add_appointment
  rw [dif_pos hex]
  exact ⟨rfl, rfl, countP_eq_one_of_noDouble hnd ha hk⟩

/-- Witness for C1 at a concrete store holding one appointment for
(doctor 1, "2025-06-01", "10:00"). -/
theorem C1_double_booking_fails_unchanged_witness :
    (add_appointment 1 2 "2025-06-01" "10:00" none 9
        ⟨[], [], [⟨1, 1, 1, "2025-06-01", "10:00", none, 0⟩], 1, 1, 2⟩).1 =
      (false, some uniqueErrMsg) ∧
    (add_appointment 1 2 "2025-06-01" "10:00" none 9
        ⟨[], [], [⟨1, 1, 1, "2025-06-01", "10:00", none, 0⟩], 1, 1, 2⟩).2 =
      ⟨[], [], [⟨1, 1, 1, "2025-06-01", "10:00", none, 0⟩], 1, 1, 2⟩ ∧
    countMatching (add_appointment 1 2 "2025-06-01" "10:00" none 9
        ⟨[], [], [⟨1, 1, 1, "2025-06-01", "10:00", none, 0⟩], 1, 1, 2⟩).2
      1 "2025-06-01" "10:00" = 1 :=
  C1_double_booking_fails_unchanged
    ⟨[], [], [⟨1, 1, 1, "2025-06-01", "10:00", none, 0⟩], 1, 1, 2⟩
    1 2 "2025-06-01" "10:00" none 9
    ⟨1, 1, 1, "2025-06-01", "10:00", none, 0⟩
    (by simp) (by decide) (by simp [noDoubleBooking])

/-- C8 counterexample: on a non-colliding insert the caller receives only
`(True, None)`: two stores whose fresh identities (1 versus 5) and
timestamps (7 versus 42) differ produce the very same return value, so the
newly assigned identity and creation timestamp are not returned. -/
theorem C8_counterexample :
    (add_appointment 1 1 "2025-06-01" "10:00" none 7 DB.empty).1 = (true, none) ∧
    (add_appointment 1 1 "2025-06-01" "10:00" none 42
        ⟨[], [], [], 1, 1, 5⟩).1 = (true, none) ∧
    ((add_appointment 1 1 "2025-06-01" "10:00" none 7 DB.empty).2.appointments.map
      (fun a => (a.id, a.created_at))) = [(1, 7)] ∧
    ((add_appointment 1 1 "2025-06-01" "10:00" none 42
        ⟨[], [], [], 1, 1, 5⟩).2.appointments.map
      (fun a => (a.id, a.created_at))) = [(5, 42)] := by
  refine ⟨?_, ?_, ?_, ?_⟩ <;> decide

/-- C8 amended: a booking whose (doctor, date, time) triple collides with no
existing row succeeds — the call returns success with no error message, and
the row is appended carrying the freshly assigned identity and the
system-assigned creation timestamp, which are recorded in the table but not
returned to the caller. -/
theorem C8_insert_success (db : DB) (did pid : Nat) (date time : String)
    (reason : Option String) (now : Nat)
    (hno : ¬ ∃ a ∈ db.appointments, matchesKey did date time a) :
    (add_appointment did pid date time reason now db).1 = (true, none) ∧
    (add_appointment did pid date time reason now db).2.appointments =
      db.appointments ++ [⟨db.nextApptId, did, pid, date, time, reason, now⟩] ∧
    (add_appointment did pid date time reason now db).2.nextApptId =
      db.nextApptId + 1 := by
  unfold add_appointment
  rw [dif_neg hno]
  exact ⟨rfl, rfl, rfl⟩

/-- Witness for C8 on a fresh store. -/
theorem C8_insert_success_witness :
    (add_appointment 1 1 "2025-06-01" "10:00" none 7 DB.empty).1 = (true, none) ∧
    (add_appointment 1 1 "2025-06-01" "10:00" none 7 DB.empty).2.appointments =
      DB.empty.appointments ++ [⟨DB.empty.nextApptId, 1, 1, "2025-06-01", "10:00", none, 7⟩] ∧
    (add_appointment 1 1 "2025-06-01" "10:00" none 7 DB.empty).2.nextApptId =
      DB.empty.nextApptId + 1 :=
  C8_insert_success DB.empty 1 1 "2025-06-01" "10:00" none 7 (by decide)

/-- C9: deleting a doctor removes exactly the appointments referencing that
doctor together with the doctor's own record while leaving patients
untouched; deleting a patient removes only the patient record, leaving every
appointment (and so its patient reference) and every doctor unchanged. -/
theorem C9_delete_cascade_asymmetry (db : DB) (did pid : Nat) :
    (∀ a : Appointment, a ∈ (delete_doctor did db).appointments ↔
      a ∈ db.appointments ∧ a.doctor_id ≠ did) ∧
    (∀ d : Doctor, d ∈ (delete_doctor did db).doctors ↔
      d ∈ db.doctors ∧ d.id ≠ did) ∧
    (delete_doctor did db).patients = db.patients ∧
    (delete_patient pid db).appointments = db.appointments ∧
    (∀ p : Patient, p ∈ (delete_patient pid db).patients ↔
      p ∈ db.patients ∧ p.id ≠ pid) ∧
    (delete_patient pid db).doctors = db.doctors := by
  refine ⟨?_, ?_, rfl, rfl, ?_, rfl⟩
  · intro a
    simp [delete_doctor, List.mem_filter]
  · intro d
    simp [delete_doctor, List.mem_filter]
  · intro p
    simp [delete_patient, List.mem_filter]

end Hospital
